import Mathlib

/-!
Verification of the beezim archive-to-output conversion pipeline
(`indexer/indexer.go`) and the bytes upload client
(`internal/beeclient/api/bytes.go`) against its specification.

The Go code is shallowly embedded: byte slices (`[]byte`) are modelled as
`String` (one `Char` per byte), Go maps extensionally as association lists
where assignment prepends and lookup returns the newest binding, the
external ZIM decoder (gozim) as a record of accessor functions whose
fallible accessors return `Option`, and channel emission / index insertion
as an explicit event trace in program order.
-/

namespace Beezim

/-! Section: Metadata values

`indexer.go:149-152` inserts the Go map literal
`map[string]string{"Title": a.Title, "MimeType": a.MimeType()}`;
a map with exactly these two keys is modelled as a record. -/

/-- Metadata record for one entry: the two fields the indexer stores. -/
structure ArticleMeta where
  Title : String
  MimeType : String
deriving DecidableEq, Repr

/-- Record `IndexEntry` (indexer.go:65-68): path plus metadata. -/
structure IndexEntry where
  Path : String
  Metadata : ArticleMeta
deriving DecidableEq, Repr

/-- The `entries map[string]IndexEntry` field (indexer.go:58), modelled
extensionally: an association list where a fresh binding shadows older
ones, so `mapLookup` returns the most recent write. -/
abbrev EntriesMap := List (String × IndexEntry)

/-- Go map read `m[k]` (comma-ok form): the newest binding for `k`. -/
def mapLookup (m : EntriesMap) (k : String) : Option IndexEntry :=
  (m.find? (fun e => e.1 == k)).map (·.2)

/-- Method `AddEntry` (indexer.go:83-91): Go map assignment
`idx.entries[entryPath] = IndexEntry{Path: entryPath, Metadata: metadata}`,
modelled by prepending the new binding (assignment overwrites: the newest
binding is the one `mapLookup` sees). The mutex only serializes concurrent
callers and does not affect the sequential semantics. -/
def AddEntry (m : EntriesMap) (entryPath : String) (metadata : ArticleMeta) : EntriesMap :=
  (entryPath, { Path := entryPath, Metadata := metadata }) :: m

/-- A sequence of `AddEntry` calls applied to the empty map that
`New` creates (indexer.go:79, `entries: make(map[string]IndexEntry)`). -/
def runAdds (calls : List (String × ArticleMeta)) : EntriesMap :=
  calls.foldl (fun m c => AddEntry m c.1 c.2) []

/-- The metadata supplied by the last `AddEntry` call for path `p`
in a call sequence, if any. -/
def lastWrite : List (String × ArticleMeta) → String → Option ArticleMeta
  | [], _ => none
  | c :: cs, p =>
    match lastWrite cs p with
    | some md => some md
    | none => if c.1 = p then some c.2 else none

/-! Section: Reference semantics of the entries map (for the snapshot claim)

In Go, `SwarmWikiIndexer.entries` is a map value, i.e. a reference to a
shared mutable table. `Entries()` (indexer.go:93-95) returns that reference
unchanged — `return idx.entries` — with no copy. We model the reference
explicitly with a tiny heap of map cells. -/

/-- Heap of map cells; a cell id is an index into the list. -/
abbrev MapHeap := List EntriesMap

/-- Record `SwarmWikiIndexer`, restricted to the field the snapshot claim is
about: `entries` holds a reference into the heap (indexer.go:54-60). -/
structure SwarmWikiIndexer where
  entriesRef : Nat

/-- Dereference a map cell. -/
def heapRead (h : MapHeap) (r : Nat) : EntriesMap :=
  (h.get? r).getD []

/-- Overwrite a map cell. -/
def heapWrite (h : MapHeap) (r : Nat) (v : EntriesMap) : MapHeap :=
  h.set r v

/-- Function `New` (indexer.go:70-81): allocates a fresh empty entries map. -/
def indexerNew : MapHeap × SwarmWikiIndexer :=
  ([[]], { entriesRef := 0 })

/-- Method `Entries` (indexer.go:93-95): `return idx.entries` — returns the live
map reference itself, not a copy of its contents. -/
def entriesGo (idx : SwarmWikiIndexer) : Nat :=
  idx.entriesRef

/-- Method `AddEntry` under reference semantics (indexer.go:83-91): mutates the
table the indexer's `entries` reference points at. -/
def addEntryGo (h : MapHeap) (idx : SwarmWikiIndexer) (p : String) (md : ArticleMeta) : MapHeap :=
  heapWrite h idx.entriesRef (AddEntry (heapRead h idx.entriesRef) p md)

/-! Section: Article and its self-referential Data accessor -/

/-- Record `Article` (indexer.go:41-44): the streamed entry, a path and a payload. -/
structure Article where
  path : String
  data : String
deriving DecidableEq, Repr

/-- Method `Article.Data` (indexer.go:50-52): the body is `return a.Data()` — the
method calls itself and never reads the stored `data` field. The
non-productive recursion is made total with a fuel parameter: `none`
models a call that has not returned after `fuel` recursive steps. -/
def Article.DataGo : Nat → Article → Option String
  | 0, _ => none
  | fuel + 1, a => Article.DataGo fuel a

/-! Section: Bytes upload client (bytes.go) -/

/-- Go `http.Header`, modelled as an ordered list of (key, value) pairs.
Both keys used below are already in canonical MIME form, so
canonicalization is the identity here. -/
abbrev HttpHeader := List (String × String)

/-- Go `http.Header.Set`: replaces all values for the key with the single
given value. -/
def headerSet (h : HttpHeader) (k v : String) : HttpHeader :=
  (k, v) :: h.filter (fun e => e.1 != k)

/-- Go `http.Header.Add`: appends a value for the key, keeping existing ones. -/
def headerAdd (h : HttpHeader) (k v : String) : HttpHeader :=
  h ++ [(k, v)]

/-- Go `http.Header.Get`: first value for the key, if any. -/
def headerGet (h : HttpHeader) (k : String) : Option String :=
  (h.find? (fun e => e.1 == k)).map (·.2)

/-- Modelled from the spec: the `SwarmPinHeader` constant comes from the
api package, which is not under src/; §6 calls it the pin directive
header. Its exact value is immaterial to the claims. -/
def SwarmPinHeader : String := "Swarm-Pin"

/-- Record `UploadOptions`, restricted to the field `Upload` reads. -/
structure UploadOptions where
  Pin : Bool
deriving DecidableEq

/-- The HTTP request `RequestWithHeader` is invoked with, as assembled by
`BytesService.Upload`. -/
structure UploadRequest where
  method : String
  urlPath : String
  header : HttpHeader
deriving DecidableEq

/-- Method `BytesService.Upload` (bytes.go:43-53): builds an empty header, `Set`s
Content-Type to application/octet-stream, `Add`s the pin header with value
"true" exactly when `o.Pin`, and issues `POST /bytes`. -/
def bytesUpload (o : UploadOptions) : UploadRequest :=
  let header := headerSet [] "Content-Type" "application/octet-stream"
  let header := if o.Pin then headerAdd header SwarmPinHeader "true" else header
  { method := "POST", urlPath := "/bytes", header := header }


/-! Section: the ZIM decoder adapter (external, gozim)

The decoder is a black box (spec section 4.1). An open reader is a record
of its accessors; every fallible accessor returns Option (none models the
error case). -/

/-- Kind of a decoder entry: gozim exposes zim.RedirectEntry and
zim.DeletedEntry; everything else is an ordinary content entry. -/
inductive EntryKind
  | normal
  | redirect
  | deleted
deriving DecidableEq, Repr

/-- One decoder entry, as seen through the per-index accessors used by
ParseZIM: FullURL(), Namespace, Title, MimeType(), EntryType,
RedirectIndex() and Data(). -/
structure ZimArticle where
  fullURL : String
  ns : Char
  title : String
  mimeType : String
  entryType : EntryKind
  redirectIndex : Option Nat
  payload : Option String
deriving DecidableEq, Repr

/-- An open zim.ZimReader: ArticleAtURLIdx, the index sequence that
ListTitlesPtrIterator visits (in archive-defined order), and MainPage()
which can fail, find no main page, or return one. -/
structure ZimReader where
  articleAt : Nat → Option ZimArticle
  order : List Nat
  mainPage : Except String (Option ZimArticle)

/-- Namespace codes the switch at indexer.go:116-121 recognizes. -/
def recognizedNS (c : Char) : Bool :=
  c == '-' || c == 'A' || c == 'I' || c == 'M' || c == 'X'

/-! Section: redirect page synthesis -/

/-- Fixed fragment of the redirect template before the target path. -/
def redirectTmplPre : String := "<html><head><meta http-equiv=refresh content=0; url="

/-- Fixed fragment of the redirect template after the target path. -/
def redirectTmplPost : String := "></head><body>redirecting</body></html>"

/-- Modelled from the spec: templates/index-redirect.html is embedded at
build time and is not under src/. Spec sections 4.6 and 8 describe the
rendered page as a minimal document that redirects the viewer to the
given target path. buildRedirectPage (indexer.go:229-239) renders the
template with context MainURL = pagePath; the rendering is modelled as
the target path spliced between two fixed template fragments. The model
is total: a render error in the source aborts the run (log.Fatalf),
which no claim here depends on. -/
def buildRedirectPage (pagePath : String) : String :=
  redirectTmplPre ++ pagePath ++ redirectTmplPost

/-- Parse a rendered redirect page back to the target it names, by
stripping the two fixed template fragments. -/
def namedRedirectTarget (page : String) : String :=
  String.mk ((page.data.drop redirectTmplPre.length).take
    (page.data.length - redirectTmplPre.length - redirectTmplPost.length))

/-- Go path.Base (and filepath.Base on slash-separated paths, used at
indexer.go:105/132/281/298): the empty string gives ".", trailing slashes
are stripped, the last slash-separated element is returned, and an
all-slash path gives "/". -/
def pathBase (s : String) : String :=
  if s = "" then "."
  else
    let r := (s.data.reverse.dropWhile (fun c => c == '/')).takeWhile (fun c => c != '/')
    if r = [] then "/" else String.mk r.reverse

/-! Section: the Producer (ParseZIM, indexer.go:97-165) -/

/-- Payload selection for one recognized, non-deleted entry
(indexer.go:123-141): a redirect entry resolves its target index and
synthesizes a redirect stub naming the base name of the target entry
FullURL; any other entry fetches its own payload. none models the
skip-and-continue error paths (resolution or fetch failure). -/
def entryData (z : ZimReader) (a : ZimArticle) : Option String :=
  if a.entryType = EntryKind.redirect then
    match a.redirectIndex with
    | none => none
    | some ri =>
      match z.articleAt ri with
      | none => none
      | some ra => some (buildRedirectPage (pathBase ra.fullURL))
  else a.payload

/-- Processing of one visited index (the iterator callback body,
indexer.go:107-159): accessor failure or a deleted entry skips; an
unrecognized namespace skips silently; otherwise the Article to emit and
the metadata to insert are produced. -/
def processEntry (z : ZimReader) (i : Nat) : Option (Article × ArticleMeta) :=
  match z.articleAt i with
  | none => none
  | some a =>
    if a.entryType = EntryKind.deleted then none
    else if recognizedNS a.ns then
      match entryData z a with
      | none => none
      | some d =>
        some ({ path := a.fullURL, data := d },
              { Title := a.title, MimeType := a.mimeType })
    else none

/-- Observable effects of the producer, in program order. -/
inductive StreamEvent
  | emit (path : String) (data : String)
  | insert (path : String) (md : ArticleMeta)
deriving DecidableEq, Repr

/-- Events of one iterator callback, in source order: the channel send
`zimArticles <- Article{...}` (indexer.go:143-146) happens first, the
`idx.AddEntry(...)` call (indexer.go:149-152) second. -/
def stepEvents (z : ZimReader) (i : Nat) : List StreamEvent :=
  match processEntry z i with
  | none => []
  | some (art, md) => [StreamEvent.emit art.path art.data, StreamEvent.insert art.path md]

/-- Concatenation of a list of lists. -/
def concatAll {a : Type _} (ls : List (List a)) : List a :=
  ls.foldr (fun x y => x ++ y) []

/-- Full event trace of one ParseZIM run. -/
def parseZIMEvents (z : ZimReader) : List StreamEvent :=
  concatAll (z.order.map (stepEvents z))

/-- The Articles a ParseZIM run emits on its output channel, in order. -/
def parseZIMArticles (z : ZimReader) : List Article :=
  z.order.filterMap (fun i => (processEntry z i).map (fun x => x.1))

/-- Success of the decoder accessors at one visited index, as claim C1
assumes them: the per-entry accessor succeeds, redirect resolution
succeeds for redirect entries, and the payload fetch succeeds for
ordinary entries (a deleted entry is skipped before any further access). -/
def decoderOkAt (z : ZimReader) (i : Nat) : Bool :=
  match z.articleAt i with
  | none => false
  | some a =>
    if a.entryType = EntryKind.deleted then true
    else if a.entryType = EntryKind.redirect then
      match a.redirectIndex with
      | none => false
      | some ri => (z.articleAt ri).isSome
    else a.payload.isSome

/-- Test for a visited index holding an entry in a recognized namespace. -/
def isRecognizedAt (z : ZimReader) (i : Nat) : Bool :=
  match z.articleAt i with
  | some a => recognizedNS a.ns
  | none => false

/-- Test for a visited index holding a deleted entry in a recognized
namespace. -/
def isDeletedRecognizedAt (z : ZimReader) (i : Nat) : Bool :=
  match z.articleAt i with
  | some a => recognizedNS a.ns && decide (a.entryType = EntryKind.deleted)
  | none => false

/-- Number R of visited entries in recognized namespaces. -/
def recognizedCount (z : ZimReader) : Nat :=
  z.order.countP (isRecognizedAt z)

/-- Number D of visited deleted entries in recognized namespaces. -/
def deletedRecognizedCount (z : ZimReader) : Nat :=
  z.order.countP (isDeletedRecognizedAt z)

/-- Every visited entry outside the recognized namespaces produces no
event at all: no emission and no metadata insertion. -/
def droppedSilently (z : ZimReader) : Bool :=
  z.order.all (fun i =>
    match z.articleAt i with
    | none => true
    | some a => recognizedNS a.ns || (stepEvents z i).isEmpty)

/-- Checker that a trace is a sequence of adjacent pairs, each an
emission directly followed by the metadata insertion for the same path. -/
def emitInsertPaired : List StreamEvent → Bool
  | [] => true
  | StreamEvent.emit p _ :: StreamEvent.insert q _ :: rest => p == q && emitInsertPaired rest
  | _ => false

/-- Test for an emission event of the given path. -/
def isEmitOf (p : String) : StreamEvent → Bool
  | StreamEvent.emit q _ => q == p
  | _ => false

/-- Test for an insertion event of the given path. -/
def isInsertOf (p : String) : StreamEvent → Bool
  | StreamEvent.insert q _ => q == p
  | _ => false

/-- Test whether some event satisfying f occurs strictly before some
event satisfying g in the trace. -/
def strictlyBefore (f g : StreamEvent → Bool) : List StreamEvent → Bool
  | [] => false
  | e :: rest => (f e && rest.any g) || strictlyBefore f g rest

/-! Section: the streaming archive writer (TarZim, indexer.go:199-227) -/

/-- Items appearing in a tar output file, abstracted: a header block, a
payload block, or the closing trailer the tar format requires. -/
inductive TarItem
  | header (name : String) (size : Nat) (mode : Nat)
  | fileData (data : String)
  | trailer
deriving DecidableEq, Repr

/-- State of an open tar.Writer: the items written so far. -/
structure TarWriterState where
  items : List TarItem
deriving DecidableEq, Repr

/-- Go tar.Writer WriteHeader: appends one header block. -/
def twWriteHeader (tw : TarWriterState) (name : String) (size mode : Nat) : TarWriterState :=
  { items := tw.items ++ [TarItem.header name size mode] }

/-- Go tar.Writer Write: appends the payload block. -/
def twWrite (tw : TarWriterState) (data : String) : TarWriterState :=
  { items := tw.items ++ [TarItem.fileData data] }

/-- Go tar.Writer Close: appends the format trailer. -/
def twClose (tw : TarWriterState) : TarWriterState :=
  { items := tw.items ++ [TarItem.trailer] }

/-- Method `TarZim` (indexer.go:199-227), on its success path: for each
Article from the stream, in arrival order, write a header with Name the
path, Mode 0600 and Size the payload length, then write the payload;
close the writer (emitting the trailer) once the channel is drained. -/
def TarZim (files : List Article) : TarWriterState :=
  twClose (files.foldl
    (fun tw f => twWrite (twWriteHeader tw f.path f.data.length 0o600) f.data)
    { items := [] })

/-! Section: auxiliary page builders -/

/-- A tarball.BufferFile as handed to tarball.AppendTarData: the in-tar
name and the rendered content. -/
structure BufferFile where
  name : String
  content : String
deriving DecidableEq, Repr

/-- Failure cases of MakeRedirectIndexPage: an error from Z.MainPage(),
the distinguished errors.New result for a missing main page
(indexer.go:252), or an append failure from tarball.AppendTarData. -/
inductive MkPageErr
  | zimErr (msg : String)
  | noMainPage
  | appendErr (msg : String)
deriving DecidableEq, Repr

/-- Method `MakeRedirectIndexPage` (indexer.go:243-265): propagates a
MainPage() error; fails with the no-main-page error when the accessor
succeeds but returns none; otherwise renders the redirect stub for the
main page FullURL and appends it as index.html. The appendRes parameter
models the outcome of tarball.AppendTarData (code outside src/): none is
success, some msg an append failure. -/
def MakeRedirectIndexPage (z : ZimReader) (appendRes : Option String) : Except MkPageErr BufferFile :=
  match z.mainPage with
  | Except.error e => Except.error (MkPageErr.zimErr e)
  | Except.ok none => Except.error MkPageErr.noMainPage
  | Except.ok (some mp) =>
    match appendRes with
    | some e => Except.error (MkPageErr.appendErr e)
    | none => Except.ok { name := "index.html", content := buildRedirectPage mp.fullURL }

/-- Modelled from the spec: templates/error.html is embedded at build
time and is not under src/. Spec section 4.8 describes renderError as a
deterministic function of the source file name only; the rendering is
modelled as the file name spliced between two fixed template fragments. -/
def errorPageBytes (fileName : String) : String :=
  "<html><body>an error occurred while loading " ++ fileName ++ "</body></html>"

/-- The mutable indexer state MakeErrorPage runs against: the ZIM path
and the accumulated entries map (indexer.go:54-60). -/
structure IndexerState where
  ZimPath : String
  entries : EntriesMap
deriving DecidableEq, Repr

/-- Method `MakeErrorPage` (indexer.go:296-305): renders the error
template with context File = filepath.Base(idx.ZimPath) and appends it as
error.html; no other state is read. -/
def MakeErrorPage (s : IndexerState) : BufferFile :=
  { name := "error.html", content := errorPageBytes (pathBase s.ZimPath) }


end Beezim

namespace Beezim

/-! Section: Theorems: Metadata Index -/

/-- Folding `AddEntry` over a call list starting from any map: the result
at `p` is the last write to `p` if there is one, else the initial map's
binding. -/
theorem lookup_runAdds_from (calls : List (String × ArticleMeta)) :
    ∀ m p, mapLookup (calls.foldl (fun m c => AddEntry m c.1 c.2) m) p
      = match lastWrite calls p with
        | some md => some { Path := p, Metadata := md }
        | none => mapLookup m p := by
  induction calls with
  | nil => intro m p; rfl
  | cons c cs ih =>
    intro m p
    have hstep : mapLookup (AddEntry m c.1 c.2) p
        = if c.1 = p then some { Path := c.1, Metadata := c.2 } else mapLookup m p := by
      simp only [AddEntry, mapLookup, List.find?]
      by_cases h : c.1 = p
      · simp [h]
      · have : (c.1 == p) = false := by
          simp [h]
        simp [this, h]
    show mapLookup (cs.foldl (fun m c => AddEntry m c.1 c.2) (AddEntry m c.1 c.2)) p = _
    rw [ih (AddEntry m c.1 c.2) p, hstep]
    show _ = (match (match lastWrite cs p with
        | some md => some md
        | none => if c.1 = p then some c.2 else none) with
      | some md => some { Path := p, Metadata := md }
      | none => mapLookup m p)
    cases hcs : lastWrite cs p with
    | some md => simp
    | none =>
      by_cases h : c.1 = p
      · subst h; simp
      · simp [h]

/-- C9: starting from the empty map created by `New`, after any sequence
of `AddEntry(path, metadata)` calls, every binding present in the entries
map has `Path` equal to its key and `Metadata` equal to the metadata of
the last `AddEntry` call for that key (last-write-wins). -/
theorem addEntry_last_write_wins (calls : List (String × ArticleMeta)) (p : String)
    (e : IndexEntry) (h : mapLookup (runAdds calls) p = some e) :
    e.Path = p ∧ some e.Metadata = lastWrite calls p := by
  have := lookup_runAdds_from calls [] p
  rw [runAdds] at h
  rw [this] at h
  cases hlw : lastWrite calls p with
  | some md =>
    rw [hlw] at h
    cases h
    exact ⟨rfl, rfl⟩
  | none =>
    rw [hlw] at h
    simp [mapLookup] at h

/-- Witness for C9: three calls, the key "A/a" written twice; the map
holds the second write with the key as its `Path`. -/
theorem addEntry_last_write_wins_witness :
    mapLookup (runAdds [("A/a", ⟨"first", "text/html"⟩), ("A/b", ⟨"other", "text/css"⟩),
        ("A/a", ⟨"second", "text/plain"⟩)]) "A/a"
      = some { Path := "A/a", Metadata := ⟨"second", "text/plain"⟩ } ∧
    ({ Path := "A/a", Metadata := ⟨"second", "text/plain"⟩ } : IndexEntry).Path = "A/a" ∧
    some ({ Path := "A/a", Metadata := (⟨"second", "text/plain"⟩ : ArticleMeta) } : IndexEntry).Metadata
      = lastWrite [("A/a", ⟨"first", "text/html"⟩), ("A/b", ⟨"other", "text/css"⟩),
        ("A/a", ⟨"second", "text/plain"⟩)] "A/a" :=
  ⟨by decide, addEntry_last_write_wins _ "A/a" _ (by decide)⟩

/-! Section: Theorems: Entries snapshot aliasing (C2) -/

/-- C2: `Entries()` returns the live internal map, not a copy: after
`New`, taking `r := Entries()` and then calling
`AddEntry("A/home.html", ...)`, the mapping observed through `r` has
gained the new binding — the mapping obtained from the earlier `Entries()`
call is changed by the later `AddEntry`, contradicting the snapshot
requirement the spec states (and itself flags as a source defect in §9). -/
theorem entries_returns_live_map_alias :
    mapLookup
        (heapRead (addEntryGo indexerNew.1 indexerNew.2 "A/home.html" ⟨"Home", "text/html"⟩)
          (entriesGo indexerNew.2))
        "A/home.html"
      = some { Path := "A/home.html", Metadata := ⟨"Home", "text/html"⟩ } ∧
    mapLookup (heapRead indexerNew.1 (entriesGo indexerNew.2)) "A/home.html" = none := by
  constructor
  · rfl
  · rfl

/-! Section: Theorems: Article.Data (C4) -/

/-- C4: `Article.Data` never returns: for every fuel bound and every
article, the self-call `return a.Data()` has not produced a value — in
particular it never returns the stored payload field, contradicting the
intended behavior the spec records. -/
theorem article_data_never_terminates (fuel : Nat) (a : Article) :
    Article.DataGo fuel a = none := by
  induction fuel with
  | zero => rfl
  | succ n ih => exact ih

/-! Section: Theorems: bytes upload headers (C10) -/

/-- C10: every `BytesService.Upload` issues `POST /bytes` whose header
carries Content-Type application/octet-stream, and carries the Swarm pin
header with value "true" exactly when `o.Pin` is true; when `o.Pin` is
false no pin header is present at all. -/
theorem bytesUpload_headers (o : UploadOptions) :
    (bytesUpload o).method = "POST" ∧
    (bytesUpload o).urlPath = "/bytes" ∧
    headerGet (bytesUpload o).header "Content-Type" = some "application/octet-stream" ∧
    headerGet (bytesUpload o).header SwarmPinHeader
      = (if o.Pin then some "true" else none) ∧
    (bytesUpload o).header.countP (fun e => e.1 == SwarmPinHeader)
      = (if o.Pin then 1 else 0) := by
  cases o with
  | mk pin =>
    cases pin with
    | false => exact ⟨rfl, rfl, by decide, by decide, by decide⟩
    | true => exact ⟨rfl, rfl, by decide, by decide, by decide⟩

end Beezim

namespace Beezim

/-! Section: helper lemmas -/

/-- Unfolding lemma for concatAll on a cons. -/
theorem concatAll_cons {a : Type _} (x : List a) (ls : List (List a)) :
    concatAll (x :: ls) = x ++ concatAll ls := rfl

/-- Reading back the target from a rendered redirect stub recovers the
path the stub was built for. -/
theorem namedRedirectTarget_build (t : String) :
    namedRedirectTarget (buildRedirectPage t) = t := by
  cases t with
  | mk cs =>
    have hdata : (buildRedirectPage (String.mk cs)).data
        = redirectTmplPre.data ++ (cs ++ redirectTmplPost.data) := by
      simp [buildRedirectPage, String.data_append, List.append_assoc]
    have hpre : redirectTmplPre.length = redirectTmplPre.data.length := rfl
    have hpost : redirectTmplPost.length = redirectTmplPost.data.length := rfl
    simp only [namedRedirectTarget, hdata, hpre]
    rw [List.drop_left]
    have hlen : (redirectTmplPre.data ++ (cs ++ redirectTmplPost.data)).length
        - redirectTmplPre.data.length - redirectTmplPost.length = cs.length := by
      simp only [List.length_append, hpost]
      omega
    rw [hlen, List.take_left]

/-- A visited entry in an unrecognized namespace is skipped. -/
theorem processEntry_none_unrecognized (z : ZimReader) (i : Nat) (a : ZimArticle)
    (ha : z.articleAt i = some a) (hns : recognizedNS a.ns = false) :
    processEntry z i = none := by
  by_cases hd : a.entryType = EntryKind.deleted <;> simp [processEntry, ha, hd, hns]

/-- When the decoder accessors succeed at a visited index holding a
non-deleted entry in a recognized namespace, the entry is processed into
an emitted Article at its own FullURL together with its metadata. -/
theorem processEntry_some_of_ok (z : ZimReader) (i : Nat) (a : ZimArticle)
    (ha : z.articleAt i = some a) (hok : decoderOkAt z i = true)
    (hnd : ¬ a.entryType = EntryKind.deleted) (hns : recognizedNS a.ns = true) :
    ∃ d, processEntry z i
      = some ({ path := a.fullURL, data := d },
              { Title := a.title, MimeType := a.mimeType }) := by
  simp only [decoderOkAt, ha] at hok
  rw [if_neg hnd] at hok
  by_cases hr : a.entryType = EntryKind.redirect
  · rw [if_pos hr] at hok
    cases hri : a.redirectIndex with
    | none => simp only [hri] at hok; exact absurd hok (by simp)
    | some ri =>
      simp only [hri] at hok
      cases hra : z.articleAt ri with
      | none => rw [hra] at hok; exact absurd hok (by simp)
      | some ra =>
        refine ⟨buildRedirectPage (pathBase ra.fullURL), ?_⟩
        simp [processEntry, ha, hnd, hns, entryData, hr, hri, hra]
  · rw [if_neg hr] at hok
    cases hp : a.payload with
    | none => rw [hp] at hok; exact absurd hok (by simp)
    | some d =>
      refine ⟨d, ?_⟩
      simp [processEntry, ha, hnd, hns, entryData, hr, hp]

/-- Counting lemma behind C1: over any visited index list on which the
decoder accessors succeed, the number of emitted Articles plus the number
of deleted recognized entries equals the number of recognized entries. -/
theorem parseZIM_count_aux (z : ZimReader) :
    ∀ l : List Nat, l.all (decoderOkAt z) = true →
      (l.filterMap (fun i => (processEntry z i).map (fun x => x.1))).length
          + l.countP (isDeletedRecognizedAt z)
        = l.countP (isRecognizedAt z) := by
  intro l
  induction l with
  | nil => intro _; rfl
  | cons i l ih =>
    intro h
    rw [List.all_cons, Bool.and_eq_true] at h
    obtain ⟨hi, hl⟩ := h
    have ihl := ih hl
    rw [List.filterMap_cons, List.countP_cons, List.countP_cons]
    cases ha : z.articleAt i with
    | none =>
      simp only [decoderOkAt, ha] at hi
      exact absurd hi (by simp)
    | some a =>
      by_cases hd : a.entryType = EntryKind.deleted
      · have hpe : processEntry z i = none := by simp [processEntry, ha, hd]
        have h1 : isDeletedRecognizedAt z i = recognizedNS a.ns := by
          simp [isDeletedRecognizedAt, ha, hd]
        have h2 : isRecognizedAt z i = recognizedNS a.ns := by
          simp [isRecognizedAt, ha]
        rw [hpe, h1, h2]
        cases hrec : recognizedNS a.ns <;> simp <;> omega
      · by_cases hrec : recognizedNS a.ns = true
        · obtain ⟨d, hpe⟩ := processEntry_some_of_ok z i a ha hi hd hrec
          have h1 : isDeletedRecognizedAt z i = false := by
            simp [isDeletedRecognizedAt, ha, hd]
          have h2 : isRecognizedAt z i = true := by
            simp [isRecognizedAt, ha, hrec]
          rw [hpe, h1, h2]
          simp
          omega
        · have hrecf : recognizedNS a.ns = false := by
            cases hx : recognizedNS a.ns
            · rfl
            · exact absurd hx hrec
          have hpe : processEntry z i = none :=
            processEntry_none_unrecognized z i a ha hrecf
          have h1 : isDeletedRecognizedAt z i = false := by
            simp [isDeletedRecognizedAt, ha, hrecf]
          have h2 : isRecognizedAt z i = false := by
            simp [isRecognizedAt, ha, hrecf]
          rw [hpe, h1, h2]
          simpa using ihl

end Beezim

namespace Beezim

/-! Section: concrete archives for witnesses and counterexamples -/

/-- Concrete ordinary article in the recognized namespace A. -/
def zaHome : ZimArticle :=
  { fullURL := "A/home.html", ns := 'A', title := "Home", mimeType := "text/html",
    entryType := EntryKind.normal, redirectIndex := none, payload := some "hello" }

/-- Concrete deleted article in the recognized namespace A. -/
def zaDeleted : ZimArticle :=
  { fullURL := "A/gone.html", ns := 'A', title := "Gone", mimeType := "text/html",
    entryType := EntryKind.deleted, redirectIndex := none, payload := some "old" }

/-- Concrete article in an unrecognized namespace. -/
def zaSkipped : ZimArticle :=
  { fullURL := "U/skip.bin", ns := 'U', title := "Skip", mimeType := "application/epub",
    entryType := EntryKind.normal, redirectIndex := none, payload := some "blob" }

/-- Concrete redirect article pointing at index 0. -/
def zaRedir : ZimArticle :=
  { fullURL := "A/redir.html", ns := 'A', title := "Redir", mimeType := "text/html",
    entryType := EntryKind.redirect, redirectIndex := some 0, payload := none }

/-- Concrete redirect target with a directory component in its URL. -/
def zaTarget : ZimArticle :=
  { fullURL := "A/dir/target.html", ns := 'A', title := "Target", mimeType := "text/html",
    entryType := EntryKind.normal, redirectIndex := none, payload := some "content" }

/-- Reader with a single ordinary entry. -/
def zrSingle : ZimReader :=
  { articleAt := fun i => if i = 0 then some zaHome else none,
    order := [0],
    mainPage := Except.ok (some zaHome) }

/-- Reader mixing an ordinary entry, a deleted one, an unrecognized one
and a redirect: N = 4, R = 3, D = 1. -/
def zrMixed : ZimReader :=
  { articleAt := fun i =>
      if i = 0 then some zaHome
      else if i = 1 then some zaDeleted
      else if i = 2 then some zaSkipped
      else if i = 3 then some zaRedir
      else none,
    order := [0, 1, 2, 3],
    mainPage := Except.ok (some zaHome) }

/-- Reader whose entry 1 redirects to entry 0. -/
def zrRedirect : ZimReader :=
  { articleAt := fun i =>
      if i = 0 then some zaTarget
      else if i = 1 then some zaRedir
      else none,
    order := [0, 1],
    mainPage := Except.ok (some zaTarget) }

/-! Section: claim theorems for the producer -/

/-- C1: when the decoder accessors, redirect resolution and payload
fetches all succeed, a ParseZIM run over an archive with R visited
entries in the five recognized namespaces, D of them deleted, emits
exactly R - D Articles on its output stream, and every visited entry in
any other namespace produces no emission and no metadata insertion. -/
theorem parseZIM_emits_recognized_minus_deleted (z : ZimReader)
    (h : z.order.all (decoderOkAt z) = true) :
    (parseZIMArticles z).length = recognizedCount z - deletedRecognizedCount z ∧
    droppedSilently z = true := by
  constructor
  · have hc := parseZIM_count_aux z z.order h
    rw [parseZIMArticles, recognizedCount, deletedRecognizedCount]
    omega
  · rw [droppedSilently, List.all_eq_true]
    intro i hi
    cases ha : z.articleAt i with
    | none => simp [ha]
    | some a =>
      cases hrec : recognizedNS a.ns with
      | true => simp [ha, hrec]
      | false =>
        have hpe := processEntry_none_unrecognized z i a ha hrec
        simp [ha, hrec, stepEvents, hpe]

/-- Witness for C1: on the four-entry archive zrMixed the accessors all
succeed and the run emits 3 - 1 = 2 Articles. -/
theorem parseZIM_emits_recognized_minus_deleted_witness :
    zrMixed.order.all (decoderOkAt zrMixed) = true ∧
    ((parseZIMArticles zrMixed).length
        = recognizedCount zrMixed - deletedRecognizedCount zrMixed ∧
      droppedSilently zrMixed = true) :=
  ⟨by decide, parseZIM_emits_recognized_minus_deleted zrMixed (by decide)⟩

/-- C3 (amended): for every non-skipped entry of every run, the Entry is
emitted on the output stream first and the IndexEntry is inserted into
the Metadata Index immediately afterwards: the whole trace is a sequence
of emit-then-insert pairs over the same path. -/
theorem parseZIM_emit_then_insert (z : ZimReader) :
    emitInsertPaired (parseZIMEvents z) = true := by
  rw [parseZIMEvents]
  induction z.order with
  | nil => rfl
  | cons i l ih =>
    rw [List.map_cons, concatAll_cons]
    cases hp : processEntry z i with
    | none => simpa [stepEvents, hp] using ih
    | some am =>
      obtain ⟨art, md⟩ := am
      simp [stepEvents, hp, emitInsertPaired, ih]

/-- C3 counterexample: on the single-entry archive zrSingle the run
processes one non-skipped entry and its metadata insertion does not
happen before its emission — the trace is emission first, insertion
second. -/
theorem insert_before_emit_fails_cex :
    parseZIMEvents zrSingle
      = [StreamEvent.emit "A/home.html" "hello",
         StreamEvent.insert "A/home.html" { Title := "Home", MimeType := "text/html" }] ∧
    strictlyBefore (isInsertOf "A/home.html") (isEmitOf "A/home.html")
      (parseZIMEvents zrSingle) = false :=
  ⟨by decide, by decide⟩

/-- C5: a redirect entry whose target index resolves emits an Article at
the redirecting entry's own FullURL whose synthesized payload names a
redirect target equal to the base name of the resolved target entry's
FullURL. -/
theorem redirect_entry_emits_stub_at_own_path (z : ZimReader) (i ri : Nat)
    (a ra : ZimArticle)
    (ha : z.articleAt i = some a)
    (hk : a.entryType = EntryKind.redirect)
    (hns : recognizedNS a.ns = true)
    (hri : a.redirectIndex = some ri)
    (hra : z.articleAt ri = some ra) :
    processEntry z i
      = some ({ path := a.fullURL, data := buildRedirectPage (pathBase ra.fullURL) },
              { Title := a.title, MimeType := a.mimeType }) ∧
    namedRedirectTarget (buildRedirectPage (pathBase ra.fullURL)) = pathBase ra.fullURL := by
  refine ⟨?_, namedRedirectTarget_build _⟩
  have hnd : ¬ a.entryType = EntryKind.deleted := by simp [hk]
  simp [processEntry, ha, hnd, hns, entryData, hk, hri, hra]

/-- Witness for C5: in zrRedirect, entry 1 redirects to entry 0 and is
emitted at A/redir.html with a stub naming target.html. -/
theorem redirect_entry_emits_stub_at_own_path_witness :
    zrRedirect.articleAt 1 = some zaRedir ∧
    zaRedir.entryType = EntryKind.redirect ∧
    recognizedNS zaRedir.ns = true ∧
    zaRedir.redirectIndex = some 0 ∧
    zrRedirect.articleAt 0 = some zaTarget ∧
    (processEntry zrRedirect 1
        = some ({ path := zaRedir.fullURL,
                  data := buildRedirectPage (pathBase zaTarget.fullURL) },
                { Title := zaRedir.title, MimeType := zaRedir.mimeType }) ∧
      namedRedirectTarget (buildRedirectPage (pathBase zaTarget.fullURL))
        = pathBase zaTarget.fullURL) :=
  ⟨rfl, rfl, rfl, rfl, rfl,
    redirect_entry_emits_stub_at_own_path zrRedirect 1 0 zaRedir zaTarget rfl rfl rfl rfl rfl⟩

/-! Section: claim theorems for the page builders and the tar writer -/

/-- C6: MakeRedirectIndexPage fails with the no-main-page error exactly
when the decoder's MainPage accessor succeeds and returns none,
whatever the append outcome. -/
theorem makeRedirectIndexPage_noMainPage_iff (z : ZimReader) (appendRes : Option String) :
    (MakeRedirectIndexPage z appendRes = Except.error MkPageErr.noMainPage)
      ↔ z.mainPage = Except.ok none := by
  cases hmp : z.mainPage with
  | error e => simp [MakeRedirectIndexPage, hmp]
  | ok o =>
    cases o with
    | none => simp [MakeRedirectIndexPage, hmp]
    | some mp => cases appendRes <;> simp [MakeRedirectIndexPage, hmp]

/-- C7: on its success path TarZim writes, in exactly stream arrival
order, one header per Article (name the path, size the payload length,
fixed mode 0600) immediately followed by that Article's payload, and the
trailer after the stream closes. -/
theorem tarZim_layout (files : List Article) :
    (TarZim files).items
      = concatAll (files.map (fun f =>
          [TarItem.header f.path f.data.length 0o600, TarItem.fileData f.data]))
        ++ [TarItem.trailer] := by
  have aux : ∀ (fs : List Article) (tw : TarWriterState),
      (fs.foldl (fun tw f => twWrite (twWriteHeader tw f.path f.data.length 0o600) f.data) tw).items
        = tw.items ++ concatAll (fs.map (fun f =>
            [TarItem.header f.path f.data.length 0o600, TarItem.fileData f.data])) := by
    intro fs
    induction fs with
    | nil => intro tw; simp [concatAll]
    | cons f fs ih =>
      intro tw
      rw [List.foldl_cons, List.map_cons, concatAll_cons, ih]
      simp [twWrite, twWriteHeader]
  simp [TarZim, twClose, aux]

/-- C8: the rendered error page depends only on the base name of the
archive path: two indexer states whose ZIM paths share a base name yield
identical error.html output, whatever their entries. -/
theorem makeErrorPage_depends_only_on_basename (s1 s2 : IndexerState)
    (h : pathBase s1.ZimPath = pathBase s2.ZimPath) :
    MakeErrorPage s1 = MakeErrorPage s2 := by
  simp [MakeErrorPage, h]

/-- Concrete indexer state: site.zim under /data, no metadata yet. -/
def errStateA : IndexerState :=
  { ZimPath := "/data/site.zim", entries := [] }

/-- Concrete indexer state: site.zim under another directory, with one
accumulated metadata entry. -/
def errStateB : IndexerState :=
  { ZimPath := "/other/dir/site.zim",
    entries := [("A/a", { Path := "A/a", Metadata := { Title := "T", MimeType := "text/html" } })] }

/-- Witness for C8: same base name site.zim under different directories
and with different accumulated metadata gives the same error page. -/
theorem makeErrorPage_depends_only_on_basename_witness :
    pathBase errStateA.ZimPath = pathBase errStateB.ZimPath ∧
    MakeErrorPage errStateA = MakeErrorPage errStateB :=
  ⟨by decide, makeErrorPage_depends_only_on_basename _ _ (by decide)⟩

end Beezim
